import Mathlib

/-!
Verification of the PC-Alerts repository (ESPN league activity listener).

Shallow embedding of:
  - `src/image_constructors/add_or_drop.py` : layout engine (font fitting,
    centering) and the card compositor's validation/mapping phase;
  - `src/listener.py` : feed normalization, dedup key derivation, the seen-set
    ledger with its persistence behaviour, and the per-cycle processing loop.

Machine integers do not appear; Python's arbitrary-precision ints are `Int`/`Nat`
and the float quantities produced by `draw.textlength` and the caption bounds are
embedded as exact rationals `ℚ`.  Text measurement, network fetches, file opens
and the SHA-1 hash are external effects and enter the model as explicit function
parameters (oracles); everything else is translated directly from the source.
-/

/-! ## Layout Engine (`add_or_drop.py`, lines 108-122) -/

/-- Python's `round` on a real value: round half to even (banker's rounding),
as used by `int(round(x))` in `centered_x_for_text`. -/
def pythonRound (x : ℚ) : ℤ :=
  let f := ⌊x⌋
  let r := x - (f : ℚ)
  if r < 1/2 then f
  else if 1/2 < r then f + 1
  else if f % 2 = 0 then f else f + 1

/-- `fit_font_to_width(draw, text, font_path, start_size, max_width)`:
the `while size > 8` loop that measures `text` at decreasing sizes and returns
the first size whose measured width fits, falling back to size 8.
`width s` stands for `draw.textlength(text, font=load_font(font_path, s))`;
the function in the source returns the loaded font object, whose only varying
datum is its size, so the embedding returns the chosen size. -/
def fitFontSize (width : Nat → ℚ) (maxWidth : ℚ) : Nat → Nat
  | 0 => 8
  | size + 1 =>
    if 8 < size + 1 then
      if width (size + 1) ≤ maxWidth then size + 1
      else fitFontSize width maxWidth size
    else 8

/-- `centered_x_for_text(draw, text, font, left_x, right_x)`:
`x = left_x + (region_w - text_w) / 2; return int(round(x))`.
`text_w` stands for the measured `draw.textlength(text, font=font)`. -/
def centered_x_for_text (left_x right_x text_w : ℚ) : ℤ :=
  pythonRound (left_x + ((right_x - left_x) - text_w) / 2)

/-! ### Layout lemmas -/

theorem fitFontSize_ge_8 (width : Nat → ℚ) (maxWidth : ℚ) (n : Nat) :
    8 ≤ fitFontSize width maxWidth n := by
  induction n with
  | zero => simp [fitFontSize]
  | succ m ih =>
    by_cases h8 : 8 < m + 1
    · by_cases hw : width (m + 1) ≤ maxWidth
      · simp only [fitFontSize, if_pos h8, if_pos hw]; omega
      · simpa only [fitFontSize, if_pos h8, if_neg hw] using ih
    · simp only [fitFontSize, if_neg h8]
      omega

theorem fitFontSize_base (width : Nat → ℚ) (maxWidth : ℚ) (n : Nat) (h : ¬ 8 < n) :
    fitFontSize width maxWidth n = 8 := by
  cases n with
  | zero => simp [fitFontSize]
  | succ m => simp only [fitFontSize, if_neg h]

theorem fitFontSize_le_self (width : Nat → ℚ) (maxWidth : ℚ) (n : Nat) (h : 8 ≤ n) :
    fitFontSize width maxWidth n ≤ n := by
  induction n with
  | zero => omega
  | succ m ih =>
    by_cases h8 : 8 < m + 1
    · by_cases hw : width (m + 1) ≤ maxWidth
      · simp only [fitFontSize, if_pos h8, if_pos hw]
        omega
      · simp only [fitFontSize, if_pos h8, if_neg hw]
        rcases Nat.lt_or_ge m 8 with hm | hm
        · have : m = 7 := by omega
          subst this
          simp [fitFontSize]
        · exact Nat.le_succ_of_le (ih hm)
    · rw [fitFontSize_base width maxWidth _ h8]
      omega

theorem fitFontSize_fits (width : Nat → ℚ) (maxWidth : ℚ) (n : Nat)
    (h : 8 < fitFontSize width maxWidth n) :
    fitFontSize width maxWidth n ≤ n ∧ width (fitFontSize width maxWidth n) ≤ maxWidth := by
  induction n with
  | zero => simp [fitFontSize] at h
  | succ m ih =>
    by_cases h8 : 8 < m + 1
    · by_cases hw : width (m + 1) ≤ maxWidth
      · simp only [fitFontSize, if_pos h8, if_pos hw] at h ⊢
        exact ⟨Nat.le_refl _, hw⟩
      · simp only [fitFontSize, if_pos h8, if_neg hw] at h ⊢
        have := ih h
        exact ⟨Nat.le_succ_of_le this.1, this.2⟩
    · rw [fitFontSize_base width maxWidth _ h8] at h
      omega

theorem fitFontSize_largest (width : Nat → ℚ) (maxWidth : ℚ) (n : Nat)
    (s : Nat) (h8 : 8 < s) (hn : s ≤ n) (hw : width s ≤ maxWidth) :
    s ≤ fitFontSize width maxWidth n := by
  induction n with
  | zero => omega
  | succ m ih =>
    by_cases h8' : 8 < m + 1
    · by_cases hw' : width (m + 1) ≤ maxWidth
      · simp only [fitFontSize, if_pos h8', if_pos hw']
        omega
      · simp only [fitFontSize, if_pos h8', if_neg hw']
        have hsm : s ≤ m := by
          rcases Nat.lt_or_ge s (m + 1) with hlt | hge
          · omega
          · exfalso
            have hse : s = m + 1 := by omega
            rw [hse] at hw
            exact hw' hw
        exact ih hsm
    · omega

theorem pythonRound_close (x : ℚ) : |(pythonRound x : ℚ) - x| ≤ 1/2 := by
  have hfl : (⌊x⌋ : ℚ) ≤ x := Int.floor_le x
  have hfu : x < (⌊x⌋ : ℚ) + 1 := Int.lt_floor_add_one x
  unfold pythonRound
  by_cases h1 : x - (⌊x⌋ : ℚ) < 1/2
  · simp only [if_pos h1]
    rw [abs_le]
    constructor <;> linarith
  · by_cases h2 : 1/2 < x - (⌊x⌋ : ℚ)
    · simp only [if_neg h1, if_pos h2]
      rw [abs_le]
      push_cast
      constructor <;> linarith
    · by_cases h3 : ⌊x⌋ % 2 = 0
      · simp only [if_neg h1, if_neg h2, if_pos h3]
        rw [abs_le]
        constructor <;> linarith
      · simp only [if_neg h1, if_neg h2, if_neg h3]
        rw [abs_le]
        push_cast
        constructor <;> linarith

/-! ### Claims C5, C9, C6 -/

/-- C5: `fit_font_to_width` tries integer font sizes descending by 1 from the
starting size and returns the first (hence largest) size whose measured text
width is ≤ the maximum width; if no size above the minimum floor (8) fits, it
returns the minimum size 8 rather than raising an error (the function is total
and its result is always ≥ 8). -/
theorem claim_C5_fit_font (width : Nat → ℚ) (maxWidth : ℚ) (startSize : Nat) :
    8 ≤ fitFontSize width maxWidth startSize
    ∧ (8 < fitFontSize width maxWidth startSize →
        fitFontSize width maxWidth startSize ≤ startSize
        ∧ width (fitFontSize width maxWidth startSize) ≤ maxWidth)
    ∧ (∀ s, 8 < s → s ≤ startSize → width s ≤ maxWidth →
        s ≤ fitFontSize width maxWidth startSize)
    ∧ ((∀ s, 8 < s → s ≤ startSize → ¬ width s ≤ maxWidth) →
        fitFontSize width maxWidth startSize = 8) := by
  refine ⟨fitFontSize_ge_8 width maxWidth startSize,
          fitFontSize_fits width maxWidth startSize,
          fitFontSize_largest width maxWidth startSize,
          ?_⟩
  intro hnone
  by_contra hne
  have h8 : 8 < fitFontSize width maxWidth startSize := by
    have := fitFontSize_ge_8 width maxWidth startSize
    omega
  have hfits := fitFontSize_fits width maxWidth startSize h8
  exact hnone _ h8 hfits.1 hfits.2

/-- Witness for C5 at a concrete instance: with width function `s ↦ s` and
maximum width 5, no size above the floor fits, so the result is 8. -/
theorem claim_C5_fit_font_witness : fitFontSize (fun s => (s : ℚ)) 5 24 = 8 :=
  (claim_C5_fit_font (fun s => (s : ℚ)) 5 24).2.2.2 (fun s hs _ hw => by
    have hs5 : s ≤ 5 := by exact_mod_cast hw
    omega)

/-- C9: `fit_font_to_width` is monotone in the available width: for a fixed
text, font and starting size, a wider region never yields a smaller chosen
size. -/
theorem claim_C9_fit_font_monotone (width : Nat → ℚ) (startSize : Nat)
    (w1 w2 : ℚ) (h : w1 ≤ w2) :
    fitFontSize width w1 startSize ≤ fitFontSize width w2 startSize := by
  induction startSize with
  | zero => simp [fitFontSize]
  | succ m ih =>
    by_cases h8 : 8 < m + 1
    · by_cases hw1 : width (m + 1) ≤ w1
      · have hw2 : width (m + 1) ≤ w2 := le_trans hw1 h
        simp only [fitFontSize, if_pos h8, if_pos hw1, if_pos hw2]
        omega
      · by_cases hw2 : width (m + 1) ≤ w2
        · simp only [fitFontSize, if_pos h8, if_neg hw1, if_pos hw2]
          rcases Nat.lt_or_ge m 8 with hm | hm
          · rw [fitFontSize_base width w1 m (by omega)]
            omega
          · exact Nat.le_succ_of_le (fitFontSize_le_self width w1 m hm)
        · simp only [fitFontSize, if_pos h8, if_neg hw1, if_neg hw2]
          exact ih
    · simp only [fitFontSize, if_neg h8]
      omega

/-- Witness for C9 at a concrete instance. -/
theorem claim_C9_fit_font_monotone_witness :
    fitFontSize (fun s => (s : ℚ)) 5 24 ≤ fitFontSize (fun s => (s : ℚ)) 20 24 :=
  claim_C9_fit_font_monotone (fun s => (s : ℚ)) 24 5 20 (by norm_num)

/-- C6 counterexample: the claim says the centered origin is the exact value
`left_x + (usable_width - text_width)/2` FLOORED to an integer.  The code uses
Python's `round` (half to even), not floor: at `left_x = 0`, `right_x = 3`,
`text_w = 0` the exact value is `1.5`; the code returns `2` while the floor
is `1`. -/
theorem claim_C6_counterexample :
    centered_x_for_text 0 3 0 = 2 ∧ (⌊((0 : ℚ) + ((3 - 0) - 0) / 2)⌋ : ℤ) = 1 := by
  constructor
  · norm_num [centered_x_for_text, pythonRound]
  · norm_num

/-- C6 amended: `centered_x_for_text` returns
`left_x + (usable_width - text_width)/2` rounded to the nearest integer with
Python's `round` (ties to even) — not floored — it is a pure function of its
inputs (it is a function of exactly `left_x, right_x, text_w`), and the
returned origin satisfies `origin + text_w/2 = (left_x + right_x)/2` within
one pixel (in fact within half a pixel). -/
theorem claim_C6_centered_origin (left_x right_x text_w : ℚ) :
    centered_x_for_text left_x right_x text_w
      = pythonRound (left_x + ((right_x - left_x) - text_w) / 2)
    ∧ |(centered_x_for_text left_x right_x text_w : ℚ) + text_w / 2
        - (left_x + right_x) / 2| ≤ 1 := by
  refine ⟨rfl, ?_⟩
  have hclose := pythonRound_close (left_x + ((right_x - left_x) - text_w) / 2)
  have heq : (centered_x_for_text left_x right_x text_w : ℚ) + text_w / 2
      - (left_x + right_x) / 2
      = (pythonRound (left_x + ((right_x - left_x) - text_w) / 2) : ℚ)
        - (left_x + ((right_x - left_x) - text_w) / 2) := by
    unfold centered_x_for_text
    ring
  rw [heq]
  exact le_trans hclose (by norm_num)

/-! ## Event Normalizer (`listener.py`, lines 151-264)

Feed objects reach the normalizer as loosely-typed Python objects probed with
`getattr`; each probed attribute is embedded as an `Option`-valued field
(`none` = attribute absent), and a Python value that can be an int or a str is
embedded as `PyAttr`. -/

/-- Python truthiness of an optional string: `None` and the empty string are
falsy, every other string is truthy. -/
def truthy : Option String → Bool
  | none => false
  | some s => !s.data.isEmpty

/-- Python `str.strip()` (over the string's characters; Python also strips a
few rarer Unicode space characters, which never occur in this feed). -/
def pyStrip (s : String) : String :=
  ⟨(((s.data.dropWhile Char.isWhitespace).reverse.dropWhile
      Char.isWhitespace).reverse)⟩

/-- Python `str.upper()` (ASCII case mapping; the action markers matched
against are ASCII). -/
def pyUpper (s : String) : String :=
  ⟨s.data.map Char.toUpper⟩

/-- Python `str(x)` for an optional int: `None` prints as "None". -/
def strOfOptInt : Option Int → String
  | none => "None"
  | some i => toString i

/-- Containment of `sub` as a contiguous subsequence of `s` (Python `in` on
strings), over explicit character lists. -/
def containsSeq (sub : List Char) : List Char → Bool
  | [] => sub.isEmpty
  | c :: rest => sub.isPrefixOf (c :: rest) || containsSeq sub rest

/-- Python `sub in s` for strings. -/
def strContains (s sub : String) : Bool := containsSeq sub.data s.data

/-- `normalize_action(action_raw)`: uppercase/strip, then match substring
markers "ADDED" / "DROPPED" / "TRADED"; anything else passes through. -/
def normalize_action (action_raw : String) : String :=
  let a := pyUpper (pyStrip action_raw)
  if strContains a "ADDED" then "ADDED"
  else if strContains a "DROPPED" then "DROPPED"
  else if strContains a "TRADED" then "TRADED"
  else a

/-- `ONLY_ACTIONS = {"ADDED", "DROPPED"}`. -/
def ONLY_ACTIONS : List String := ["ADDED", "DROPPED"]

/-- A loosely-typed attribute value that can hold an int or a string. -/
inductive PyAttr
  | intVal (i : Int)
  | strVal (s : String)
  deriving DecidableEq, Repr

/-- espn_api Team object: the attributes probed by `get_team_name`,
`get_team_logo_url` and `get_owner_id`.  `dicts` holds, in probe order, the
dict-valued fallback attributes (`data`, `raw`, `_team`, `_raw`) that are
present and dict-typed; `owners` holds, per element of the `owners` list,
the element's string `id` when the element is a dict carrying one. -/
structure TeamObj where
  team_name : Option String
  team_id : Option String
  logo_url : Option String
  logoUrl : Option String
  logo : Option String
  team_logo : Option String
  teamLogo : Option String
  dicts : List (List (String × String))
  owners : List (Option String)
  deriving DecidableEq, Repr

/-- espn_api Player object: attributes probed by `get_player_name_and_id`;
`asStr` is Python `str(player_raw)`. -/
structure PlayerObj where
  name : Option String
  fullName : Option String
  asStr : String
  playerId : Option PyAttr
  player_id : Option PyAttr
  idAttr : Option PyAttr
  deriving DecidableEq, Repr

/-- `get_team_name(team_obj)`. -/
def get_team_name (t : TeamObj) : String :=
  if truthy t.team_name then t.team_name.getD ""
  else "Team " ++ t.team_id.getD "?"

/-- Does the string start with "http" (Python `val.startswith("http")`)? -/
def startsHttp (s : String) : Bool := "http".data.isPrefixOf s.data

/-- `get_team_logo_url(team_obj)`: probe five direct attributes for an
http-string, then the dict-valued attributes for keys logo / logoUrl /
logo_url. -/
def get_team_logo_url (t : TeamObj) : Option String :=
  let direct := [t.logo_url, t.logoUrl, t.logo, t.team_logo, t.teamLogo]
  match direct.findSome? (fun v =>
      match v with
      | some s => if startsHttp s then some s else none
      | none => none) with
  | some s => some s
  | none =>
    t.dicts.findSome? (fun d =>
      ["logo", "logoUrl", "logo_url"].findSome? (fun k =>
        match (d.find? (fun p => p.1 == k)).map (fun p => p.2) with
        | some v => if startsHttp v then some v else none
        | none => none))

/-- Decimal value of a digit list (the `int(v)` conversion applied after a
successful `v.isdigit()` check). -/
def digitsToNat (l : List Char) : Nat :=
  l.foldl (fun n c => n * 10 + (c.toNat - '0'.toNat)) 0

/-- One probed id attribute: an int is taken as-is, a digit string is
converted (`v.isdigit()` then `int(v)`), anything else yields nothing. -/
def attrToId : Option PyAttr → Option Int
  | some (.intVal i) => some i
  | some (.strVal s) =>
    if !s.data.isEmpty && s.data.all Char.isDigit then
      some (Int.ofNat (digitsToNat s.data))
    else none
  | none => none

/-- `get_player_name_and_id(player_raw)`. -/
def get_player_name_and_id (p : PlayerObj) : String × Option Int :=
  let nameOpt := if truthy p.name then p.name else p.fullName
  let name := if truthy nameOpt then nameOpt.getD "" else p.asStr
  let pid :=
    match attrToId p.playerId with
    | some i => some i
    | none =>
      match attrToId p.player_id with
      | some i => some i
      | none => attrToId p.idAttr
  (name, pid)

/-- `get_owner_id(team_obj)`: the string `id` of the first element of `owners`,
when that element is a dict carrying one. -/
def get_owner_id (t : TeamObj) : Option String :=
  match t.owners with
  | [] => none
  | o :: _ => o

/-- `player_headshot_url(player_id)`: `None` for a missing or non-positive id
(`if not player_id or player_id <= 0`), else the ESPN headshot URL. -/
def player_headshot_url : Option Int → Option String
  | none => none
  | some p =>
    if p ≤ 0 then none
    else some ("https://a.espncdn.com/i/headshots/nfl/players/full/"
               ++ toString p ++ ".png")

/-- One canonical normalized action dict
`{teamName, ownerId, action, playerName, playerId, teamLogoUrl, playerImageUrl}`. -/
structure ActionRec where
  teamName : String
  ownerId : Option String
  action : String
  playerName : String
  playerId : Option Int
  teamLogoUrl : Option String
  playerImageUrl : Option String
  deriving DecidableEq, Repr

/-- One element of `activity.actions`: a tuple `(team, action_raw, player)`
of length ≥ 3, or anything else (skipped by the normalizer). -/
inductive FeedEntry
  | entry (team : TeamObj) (actionRaw : String) (player : PlayerObj)
  | malformed
  deriving DecidableEq, Repr

/-- One raw activity record: its `actions` attribute. -/
structure Activity where
  actions : List FeedEntry
  deriving DecidableEq, Repr

/-- Per-entry body of the `normalize_actions` loop: skip malformed entries,
normalize the action and drop it unless it is in `ONLY_ACTIONS`, then resolve
the team/player fields. -/
def normEntry : FeedEntry → Option ActionRec
  | .malformed => none
  | .entry team actionRaw player =>
    let action := normalize_action actionRaw
    if action ∈ ONLY_ACTIONS then
      let np := get_player_name_and_id player
      some { teamName := get_team_name team
             ownerId := get_owner_id team
             action := action
             playerName := np.1
             playerId := np.2
             teamLogoUrl := get_team_logo_url team
             playerImageUrl := player_headshot_url np.2 }
    else none

/-- `normalize_actions(activity)`: entries in input order, skipping the ones
`normEntry` rejects. -/
def normalize_actions (a : Activity) : List ActionRec :=
  a.actions.filterMap normEntry

/-! ## Dedup Ledger (`listener.py`, lines 106-129 and 269-337) -/

/-- Stable insertion of a string into a sorted list, keeping existing equal
elements first (Python's stable `list.sort`). -/
def insertSorted (s : String) : List String → List String
  | [] => [s]
  | t :: ts => if s < t then s :: t :: ts else t :: insertSorted s ts

/-- Python `parts.sort()`: stable ascending lexicographic sort. -/
def sortStrings : List String → List String
  | [] => []
  | s :: ss => insertSorted s (sortStrings ss)

/-- The `f"{teamName}|{action}|{playerName}|{playerId}"` part built for each
action inside `make_event_key`. -/
def actionKeyStr (a : ActionRec) : String :=
  a.teamName ++ "|" ++ a.action ++ "|" ++ a.playerName ++ "|" ++ strOfOptInt a.playerId

/-- `make_event_key(actions)`: sort the per-action parts, join with " || ".
The pipeline only ever calls it with a single action. -/
def make_event_key (actions : List ActionRec) : String :=
  String.intercalate " || " (sortStrings (actions.map actionKeyStr))

/-- One emitted element of `new_items`: `{"key": key, "actions": [a]}`. -/
structure NewItem where
  key : String
  actions : List ActionRec
  deriving DecidableEq, Repr

/-- The per-action dedup body of `poll_once`: skip when the key is already in
`seen_keys`, otherwise insert the key and emit a new item.  The state threads
`seen_keys` (a Python set, embedded as a membership list) and the emitted
items in order. -/
def dedupActions : List ActionRec → List String → List String × List NewItem
  | [], seen => (seen, [])
  | a :: rest, seen =>
    let key := make_event_key [a]
    if key ∈ seen then dedupActions rest seen
    else
      let out := dedupActions rest (seen ++ [key])
      (out.1, { key := key, actions := [a] } :: out.2)

/-- All normalized actions of a raw activity window, in processing order.  The
two nested `for` loops of `poll_once` (activities, then each activity's
normalized actions) visit exactly this concatenation; the
`if not actions: continue` line skips an empty inner list and is a no-op on
the concatenation. -/
def allActions (w : List Activity) : List ActionRec :=
  (w.map normalize_actions).flatten

/-- `poll_once(size)`: dedup every normalized action of the window against
`seen_keys` and return `(new_items, updated seen_keys, save called?)`, where
the save flag embeds the `if new_items: save_seen_state()` call. -/
def poll_once (w : List Activity) (seen : List String) :
    List NewItem × List String × Bool :=
  let out := dedupActions (allActions w) seen
  (out.2, out.1, !out.2.isEmpty)

/-- The `seen_keys` field of the ledger file's JSON object as
`data.get("seen_keys", [])` sees it: absent (the default `[]` is used), present
but not a list, or a list whose members are read as strings. -/
inductive SeenField
  | missingField
  | notAList
  | strList (ks : List String)
  deriving DecidableEq, Repr

/-- The state of the ledger file on disk when `load_seen_state` runs. -/
inductive LedgerFile
  | missing
  | unreadable
  | parsed (f : SeenField)
  deriving DecidableEq, Repr

/-- The body of the `try` in `load_seen_state`: `open` + `json.load` +
`data.get`, which raises on an unreadable/corrupt file. -/
def readLedger : LedgerFile → Except String SeenField
  | .missing => .error "FileNotFoundError"
  | .unreadable => .error "json.JSONDecodeError"
  | .parsed f => .ok f

/-- `load_seen_state()`: return early when the file does not exist; otherwise
parse inside `try`, treating any exception as a no-op (`except Exception:
pass`), and replace `seen_keys` only when the parsed field is a list.  `seen0`
is the global `seen_keys` before the call (the empty set at startup). -/
def load_seen_state (file : LedgerFile) (seen0 : List String) : List String :=
  if file = .missing then seen0
  else
    match readLedger file with
    | .error _ => seen0
    | .ok .missingField => []
    | .ok .notAList => seen0
    | .ok (.strList ks) => ks

/-- Keys emitted over a sequence of poll cycles: each cycle polls one raw
window with the seen set carried over from the previous cycle. -/
def cyclesEmitted : List (List Activity) → List String → List NewItem × List String
  | [], seen => ([], seen)
  | w :: ws, seen =>
    let p := poll_once w seen
    let rest := cyclesEmitted ws p.2.1
    (p.1 ++ rest.1, rest.2)

/-- `on_startup()` up to the warm-up: load the ledger (the global `seen_keys`
starts empty) and run one `poll_once` whose results are discarded
("Warm-up so we don't blast old history"). -/
def startup (w : List Activity) (file : LedgerFile) : List String :=
  let seen := load_seen_state file []
  (poll_once w seen).2.1

/-! ## Pipeline Coordinator (`listener.py`, lines 287-309 and 340-404)

The loop body's external effects (file copy, image render, HTTP post, console
logging) are recorded in an explicit trace; the fallible collaborators (the
renderer and the Pushcut post) are oracles carried in the configuration.
Console `print` calls of ordinary messages are not traced; the two error logs
(`"[pushcut] ..."` inside `send_to_pushcut` and `"[poll error] ..."` in the
loop's `except`) are. -/

/-- One observable side effect of the processing loop. -/
inductive Effect
  | copyCard (cardId : String)
  | renderCard (a : ActionRec)
  | deliver (url : String)
  | logPushcutError (msg : String)
  | logPollError (msg : String)
  deriving DecidableEq, Repr

/-- Runtime configuration and collaborator oracles of the loop body.
`cardHash` stands for `hashlib.sha1(key).hexdigest()[:12]`; `latestExists` for
`os.path.exists(LATEST_CARD_PATH)`; `tick` for `int(time.time())`;
`renderOutcome a nick` for the outcome of
`construct_image_adds_or_drops(playerName, playerImageUrl, nick, action)`
(error = the call raised); `deliveryOutcome` for the outcome of
`requests.post` (ok = HTTP status code, error = transport exception). -/
structure Config where
  publicBaseUrl : Option String
  pushcutUrl : Option String
  latestExists : Bool
  tick : Nat
  cardHash : String → String
  ownerMap : List (String × String)
  renderOutcome : ActionRec → String → Except String Unit
  deliveryOutcome : Except String Nat

/-- `owner_id_to_name[transaction.get("ownerId")]`: dict lookup; `none` means
the lookup raises `KeyError` (also when the id itself is `None`). -/
def lookupOwner (m : List (String × String)) : Option String → Option String
  | none => none
  | some k => (m.find? (fun p => p.1 == k)).map (fun p => p.2)

/-- `send_to_pushcut(input_obj)`: skip when `PUSHCUT_URL` is unset; otherwise
post, logging a non-2xx status or a transport exception.  The body's
`try/except` catches every exception, so this function always returns a plain
trace and never propagates an error. -/
def send_to_pushcut (pushcutUrl : Option String) (outcome : Except String Nat)
    (url : String) : List Effect :=
  match pushcutUrl with
  | none => []
  | some _ =>
    match outcome with
    | .ok code =>
      if 400 ≤ code then [.deliver url, .logPushcutError "HTTP error"]
      else [.deliver url]
    | .error e => [.deliver url, .logPushcutError ("error: " ++ e)]

/-- The body of `for item in new_items` in the startup loop: freeze the latest
card file under the content-addressed id, invoke the renderer only when the
action literally equals "ADD" or "DROP", and, when `PUBLIC_BASE_URL` is set,
build the payload URL and call `send_to_pushcut`.  Returns the effects
performed and `some msg` when the body raised (which aborts the `for` loop). -/
def processItem (cfg : Config) (item : NewItem) : List Effect × Option String :=
  match item.actions with
  | [] => ([], some "IndexError: list index out of range")
  | transaction :: _ =>
    let cardId := cfg.cardHash item.key
    let copyEffs : List Effect := if cfg.latestExists then [.copyCard cardId] else []
    let renderStep : List Effect × Option String :=
      if transaction.action = "ADD" ∨ transaction.action = "DROP" then
        match lookupOwner cfg.ownerMap transaction.ownerId with
        | none => ([], some "KeyError")
        | some nick =>
          match cfg.renderOutcome transaction nick with
          | .ok _ => ([.renderCard transaction], none)
          | .error e => ([.renderCard transaction], some e)
      else ([], none)
    match renderStep with
    | (re, some e) => (copyEffs ++ re, some e)
    | (re, none) =>
      match cfg.publicBaseUrl with
      | none => (copyEffs ++ re, none)
      | some base =>
        let url := base ++ "/cards/" ++ cardId ++ ".png?ts=" ++ toString cfg.tick
        (copyEffs ++ re ++ send_to_pushcut cfg.pushcutUrl cfg.deliveryOutcome url,
         none)

/-- `for item in new_items: ...` — process items in order; an exception in one
item's body aborts the loop, carrying the error outward. -/
def runItems (cfg : Config) : List NewItem → List Effect × Option String
  | [] => ([], none)
  | item :: rest =>
    match processItem cfg item with
    | (effs, some e) => (effs, some e)
    | (effs, none) =>
      let out := runItems cfg rest
      (effs ++ out.1, out.2)

/-- The `try ... except Exception as e: print(f"[poll error] ...")` around one
cycle's item processing: an escaped exception is caught and logged. -/
def cycleProcess (cfg : Config) (items : List NewItem) : List Effect :=
  match runItems cfg items with
  | (effs, some e) => effs ++ [.logPollError ("[poll error] " ++ e)]
  | (effs, none) => effs

/-- One full iteration of the startup loop: `poll_once` then the item loop,
returning the cycle's effect trace and the updated seen set. -/
def runCycle (cfg : Config) (w : List Activity) (seen : List String) :
    List Effect × List String :=
  let p := poll_once w seen
  (cycleProcess cfg p.1, p.2.1)

/-- Effect classifiers used to count renders, card copies and deliveries. -/
def isRenderEffect : Effect → Bool
  | .renderCard _ => true
  | _ => false

def isCopyEffect : Effect → Bool
  | .copyCard _ => true
  | _ => false

def isDeliverEffect : Effect → Bool
  | .deliver _ => true
  | _ => false

def isPollErrorEffect : Effect → Bool
  | .logPollError _ => true
  | _ => false

/-! ## Dedup lemmas -/

theorem poll_once_eq (w : List Activity) (seen : List String) :
    poll_once w seen
      = ((dedupActions (allActions w) seen).2,
         (dedupActions (allActions w) seen).1,
         !(dedupActions (allActions w) seen).2.isEmpty) := rfl

/-- After the dedup loop, the seen set is exactly the initial seen set plus
the keys of the emitted items, in emission order. -/
theorem dedup_seen_eq (as : List ActionRec) (seen : List String) :
    (dedupActions as seen).1
      = seen ++ (dedupActions as seen).2.map (fun it => it.key) := by
  induction as generalizing seen with
  | nil => simp [dedupActions]
  | cons a rest ih =>
    by_cases h : make_event_key [a] ∈ seen
    · simp only [dedupActions, if_pos h]
      exact ih seen
    · simp only [dedupActions, if_neg h, List.map_cons]
      rw [ih (seen ++ [make_event_key [a]])]
      simp

theorem dedup_seen_mono (as : List ActionRec) (seen : List String) (x : String)
    (hx : x ∈ seen) : x ∈ (dedupActions as seen).1 := by
  rw [dedup_seen_eq]
  exact List.mem_append_left _ hx

/-- Every action processed by the dedup loop has its key in the resulting
seen set. -/
theorem dedup_key_mem (as : List ActionRec) (seen : List String) (a : ActionRec)
    (ha : a ∈ as) : make_event_key [a] ∈ (dedupActions as seen).1 := by
  induction as generalizing seen with
  | nil => cases ha
  | cons b rest ih =>
    by_cases h : make_event_key [b] ∈ seen
    · simp only [dedupActions, if_pos h]
      rcases List.mem_cons.mp ha with rfl | hmem
      · exact dedup_seen_mono rest seen _ h
      · exact ih seen hmem
    · simp only [dedupActions, if_neg h]
      rcases List.mem_cons.mp ha with rfl | hmem
      · exact dedup_seen_mono rest _ _ (List.mem_append_right _ (List.mem_singleton.mpr rfl))
      · exact ih (seen ++ [make_event_key [b]]) hmem

/-- Within one dedup run, a fixed key is emitted at most once, and never when
it is already in the seen set. -/
theorem dedup_count (as : List ActionRec) (seen : List String) (k : String) :
    ((dedupActions as seen).2.countP (fun it => it.key == k))
      ≤ if k ∈ seen then 0 else 1 := by
  induction as generalizing seen with
  | nil => simp [dedupActions]
  | cons a rest ih =>
    by_cases h : make_event_key [a] ∈ seen
    · simp only [dedupActions, if_pos h]
      exact ih seen
    · simp only [dedupActions, if_neg h, List.countP_cons]
      by_cases hk : make_event_key [a] = k
      · subst hk
        have hmem : make_event_key [a] ∈ seen ++ [make_event_key [a]] :=
          List.mem_append_right _ (List.mem_singleton.mpr rfl)
        have htail := ih (seen ++ [make_event_key [a]])
        rw [if_pos hmem] at htail
        rw [if_neg h]
        simp only [beq_self_eq_true, if_true]
        omega
      · have hmem : (k ∈ seen ++ [make_event_key [a]]) ↔ k ∈ seen := by
          simp only [List.mem_append, List.mem_singleton]
          constructor
          · rintro (hs | he)
            · exact hs
            · exact absurd he.symm hk
          · exact fun hs => Or.inl hs
        have htail := ih (seen ++ [make_event_key [a]])
        have hbeq : (make_event_key [a] == k) = false := by simp [hk]
        rw [hbeq]
        by_cases hks : k ∈ seen
        · rw [if_pos (hmem.mpr hks)] at htail
          rw [if_pos hks]
          simpa using htail
        · rw [if_neg (fun hc => hks (hmem.mp hc))] at htail
          rw [if_neg hks]
          simpa using htail

/-- If every key of the processed actions is already seen, the dedup loop is
a no-op: nothing is emitted and the seen set is unchanged. -/
theorem dedup_all_seen (as : List ActionRec) (seen : List String)
    (h : ∀ a ∈ as, make_event_key [a] ∈ seen) :
    dedupActions as seen = (seen, []) := by
  induction as with
  | nil => simp [dedupActions]
  | cons a rest ih =>
    have ha : make_event_key [a] ∈ seen := h a (List.mem_cons_self a rest)
    simp only [dedupActions, if_pos ha]
    exact ih (fun b hb => h b (List.mem_cons_of_mem a hb))

/-- Across any sequence of poll cycles, a fixed key is emitted at most once,
and never when it is in the initial seen set. -/
theorem cycles_count (ws : List (List Activity)) (s : List String) (k : String) :
    ((cyclesEmitted ws s).1.countP (fun it => it.key == k))
      ≤ if k ∈ s then 0 else 1 := by
  induction ws generalizing s with
  | nil => simp [cyclesEmitted]
  | cons w ws ih =>
    simp only [cyclesEmitted, poll_once_eq, List.countP_append]
    have h1 := dedup_count (allActions w) s k
    have h2 := ih (dedupActions (allActions w) s).1
    by_cases hk : k ∈ s
    · rw [if_pos hk] at h1 ⊢
      rw [if_pos (dedup_seen_mono (allActions w) s k hk)] at h2
      omega
    · rw [if_neg hk] at h1 ⊢
      by_cases hk2 : k ∈ (dedupActions (allActions w) s).1
      · rw [if_pos hk2] at h2
        omega
      · rw [if_neg hk2] at h2
        have hzero :
            ((dedupActions (allActions w) s).2.countP (fun it => it.key == k)) = 0 := by
          rw [List.countP_eq_zero]
          intro it hit
          simp only [beq_iff_eq]
          intro hkey
          apply hk2
          rw [dedup_seen_eq]
          refine List.mem_append_right _ ?_
          rw [← hkey]
          exact List.mem_map_of_mem (fun it => it.key) hit
        omega

/-! ## Pipeline lemmas -/

theorem runCycle_eq (cfg : Config) (w : List Activity) (seen : List String) :
    runCycle cfg w seen
      = (cycleProcess cfg (dedupActions (allActions w) seen).2,
         (dedupActions (allActions w) seen).1) := rfl

/-- A cycle over a window all of whose keys are already seen does nothing. -/
theorem runCycle_all_seen (cfg : Config) (w : List Activity) (seen : List String)
    (hall : ∀ a ∈ allActions w, make_event_key [a] ∈ seen) :
    runCycle cfg w seen = ([], seen) := by
  rw [runCycle_eq, dedup_all_seen _ _ hall]
  rfl

/-- Every action emitted by the normalizer carries action "ADDED" or
"DROPPED" (the `ONLY_ACTIONS` filter). -/
theorem normalize_actions_action (act : Activity) (a : ActionRec)
    (ha : a ∈ normalize_actions act) :
    a.action = "ADDED" ∨ a.action = "DROPPED" := by
  rcases List.mem_filterMap.mp ha with ⟨e, _, hne⟩
  cases e with
  | malformed => simp [normEntry] at hne
  | entry team raw player =>
    simp only [normEntry] at hne
    by_cases hmem : normalize_action raw ∈ ONLY_ACTIONS
    · rw [if_pos hmem] at hne
      have hact : a.action = normalize_action raw := by
        cases hne
        rfl
      rw [hact]
      simpa [ONLY_ACTIONS] using hmem
    · rw [if_neg hmem] at hne
      cases hne

theorem allActions_action (w : List Activity) (a : ActionRec)
    (ha : a ∈ allActions w) :
    a.action = "ADDED" ∨ a.action = "DROPPED" := by
  rcases List.mem_flatten.mp ha with ⟨l, hl, hal⟩
  rcases List.mem_map.mp hl with ⟨act, _, rfl⟩
  exact normalize_actions_action act a hal

/-- Effect counts of `send_to_pushcut`: one post attempt when `PUSHCUT_URL` is
set, none otherwise; never a render or a copy; never an escaping exception
(the function is total by construction, mirroring its internal
`try/except`). -/
theorem send_to_pushcut_counts (pu : Option String) (outcome : Except String Nat)
    (url : String) :
    ((send_to_pushcut pu outcome url).countP isDeliverEffect
        = if pu.isSome then 1 else 0)
    ∧ (send_to_pushcut pu outcome url).countP isRenderEffect = 0
    ∧ (send_to_pushcut pu outcome url).countP isCopyEffect = 0 := by
  cases pu with
  | none => simp [send_to_pushcut]
  | some u =>
    cases outcome with
    | error e =>
      simp [send_to_pushcut, List.countP_cons, isDeliverEffect, isRenderEffect,
            isCopyEffect]
    | ok code =>
      by_cases hc : 400 ≤ code
      · simp [send_to_pushcut, if_pos hc, List.countP_cons, isDeliverEffect,
              isRenderEffect, isCopyEffect]
      · simp [send_to_pushcut, if_neg hc, List.countP_cons, isDeliverEffect,
              isRenderEffect, isCopyEffect]

/-- Processing one item whose (first) transaction is not literally "ADD" or
"DROP" never raises, never renders, posts exactly once when both URLs are
configured, and copies the latest card exactly when it exists. -/
theorem processItem_no_render (cfg : Config) (item : NewItem) (tr : ActionRec)
    (rest : List ActionRec) (hact : item.actions = tr :: rest)
    (hne : ¬(tr.action = "ADD" ∨ tr.action = "DROP")) :
    (processItem cfg item).2 = none
    ∧ (processItem cfg item).1.countP isRenderEffect = 0
    ∧ ((processItem cfg item).1.countP isDeliverEffect
        = if cfg.publicBaseUrl.isSome ∧ cfg.pushcutUrl.isSome then 1 else 0)
    ∧ ((processItem cfg item).1.countP isCopyEffect
        = if cfg.latestExists then 1 else 0) := by
  have hsend := send_to_pushcut_counts cfg.pushcutUrl cfg.deliveryOutcome
  unfold processItem
  rw [hact]
  simp only [if_neg hne]
  cases hpb : cfg.publicBaseUrl with
  | none =>
    cases hl : cfg.latestExists <;>
      simp [List.countP_cons, isRenderEffect, isDeliverEffect, isCopyEffect]
  | some base =>
    rcases hsend (base ++ "/cards/" ++ cfg.cardHash item.key ++ ".png?ts="
        ++ toString cfg.tick) with ⟨hd, hr, hcp⟩
    cases hl : cfg.latestExists <;>
      cases hpu : cfg.pushcutUrl <;>
        simp_all [List.countP_append, List.countP_cons, isRenderEffect,
                  isDeliverEffect, isCopyEffect]

/-! ## Claims C3, C7, C4, C10 -/

/-- C3: the Dedup Key is a function of `(teamName, action, playerName,
playerId)` — Transactions agreeing on those four fields derive equal keys —
and across any sequence of poll cycles a fixed key is emitted as new at most
once; later occurrences of an equal key are skipped. -/
theorem claim_C3_dedup_key (t1 t2 : ActionRec)
    (h1 : t1.teamName = t2.teamName) (h2 : t1.action = t2.action)
    (h3 : t1.playerName = t2.playerName) (h4 : t1.playerId = t2.playerId) :
    make_event_key [t1] = make_event_key [t2]
    ∧ (∀ (cycles : List (List Activity)) (seen0 : List String) (k : String),
        ((cyclesEmitted cycles seen0).1.countP (fun it => it.key == k)) ≤ 1) := by
  constructor
  · simp only [make_event_key, List.map, sortStrings, insertSorted, actionKeyStr,
               h1, h2, h3, h4]
  · intro cycles seen0 k
    refine le_trans (cycles_count cycles seen0 k) ?_
    split <;> omega

/-- C7: the ledger is saved exactly after a cycle that added at least one key
(the save flag is set iff the seen set grew), and `load_seen_state` fails
open: a missing or unreadable/corrupt ledger file leaves the (initially
empty) seen set unchanged and never raises. -/
theorem claim_C7_ledger_persistence (seen0 : List String) (w : List Activity)
    (seen : List String) :
    load_seen_state .missing seen0 = seen0
    ∧ load_seen_state .unreadable seen0 = seen0
    ∧ load_seen_state .missing [] = []
    ∧ load_seen_state .unreadable [] = []
    ∧ ((poll_once w seen).2.2 = true ↔ seen.length < (poll_once w seen).2.1.length) := by
  refine ⟨rfl, rfl, rfl, rfl, ?_⟩
  have hlen : (dedupActions (allActions w) seen).1.length
      = seen.length + (dedupActions (allActions w) seen).2.length := by
    rw [dedup_seen_eq]
    simp
  rw [poll_once_eq, hlen]
  cases hI : (dedupActions (allActions w) seen).2 with
  | nil => simp
  | cons x xs =>
    simp only [List.isEmpty_cons, Bool.not_false, List.length_cons]
    constructor
    · intro _
      omega
    · intro _
      trivial

theorem runItems_singleton (cfg : Config) (item : NewItem)
    (h : (processItem cfg item).2 = none) :
    cycleProcess cfg [item] = (processItem cfg item).1 := by
  rcases hpe : processItem cfg item with ⟨effs, err⟩
  rw [hpe] at h
  simp only at h
  subst h
  simp [cycleProcess, runItems, hpe]

/-- Concrete feed objects used by witnesses: one "ADDED" activity. -/
def teamMoja : TeamObj :=
  { team_name := some "moja", team_id := some "1",
    logo_url := none, logoUrl := none, logo := none, team_logo := none,
    teamLogo := none, dicts := [], owners := [some "owner1"] }

def playerBucky : PlayerObj :=
  { name := some "Bucky Irving", fullName := none, asStr := "Bucky Irving",
    playerId := some (.intVal 7), player_id := none, idAttr := none }

def actBucky : Activity := ⟨[.entry teamMoja "ADDED" playerBucky]⟩

/-- The normalized action produced from `actBucky`. -/
def aBucky : ActionRec :=
  { teamName := "moja", ownerId := some "owner1", action := "ADDED",
    playerName := "Bucky Irving", playerId := some 7,
    teamLogoUrl := none,
    playerImageUrl :=
      some "https://a.espncdn.com/i/headshots/nfl/players/full/7.png" }

/-- `aBucky` with a different non-identifying field (team logo). -/
def aBuckyAlt : ActionRec :=
  { aBucky with teamLogoUrl := some "http://logo" }

/-- A fully-configured pipeline: public base URL and Pushcut URL set, latest
card file present, renderer and delivery succeeding. -/
def cfgBase : Config :=
  { publicBaseUrl := some "http://x", pushcutUrl := some "http://p",
    latestExists := true, tick := 0, cardHash := fun k => k,
    ownerMap := [("owner1", "moja")],
    renderOutcome := fun _ _ => .ok (), deliveryOutcome := .ok 200 }

/-- Witness instance for C3: equal identifying fields, different logo. -/
theorem claim_C3_dedup_key_witness :
    make_event_key [aBucky] = make_event_key [aBuckyAlt] :=
  (claim_C3_dedup_key aBucky aBuckyAlt rfl rfl rfl rfl).1

/-- C4: feeding the same raw activity window through a full cycle twice is
idempotent: the second cycle finds every key in the seen set, emits no new
items and produces no effects at all; and for a window holding exactly one
fresh transaction under a full configuration, the two cycles together produce
exactly one card-file copy and one delivery attempt. -/
theorem claim_C4_idempotent_cycle (cfg : Config) (w : List Activity)
    (s : List String) :
    runCycle cfg w ((runCycle cfg w s).2) = ([], (runCycle cfg w s).2)
    ∧ (∀ a, allActions w = [a] → make_event_key [a] ∉ s →
        cfg.publicBaseUrl.isSome = true → cfg.pushcutUrl.isSome = true →
        cfg.latestExists = true →
        (runCycle cfg w s).1.countP isDeliverEffect = 1
        ∧ (runCycle cfg w s).1.countP isCopyEffect = 1
        ∧ (runCycle cfg w ((runCycle cfg w s).2)).1.countP isDeliverEffect = 0) := by
  constructor
  · exact runCycle_all_seen cfg w _
      (fun b hb => dedup_key_mem (allActions w) s b hb)
  · intro a hw hs hb hp hl
    have hmem_a : a ∈ allActions w := by
      rw [hw]
      exact List.mem_singleton.mpr rfl
    have hne : ¬(a.action = "ADD" ∨ a.action = "DROP") := by
      rcases allActions_action w a hmem_a with h | h <;> rw [h] <;> decide
    have hpi := processItem_no_render cfg
      { key := make_event_key [a], actions := [a] } a [] rfl hne
    have hded : dedupActions (allActions w) s
        = (s ++ [make_event_key [a]],
           [{ key := make_event_key [a], actions := [a] }]) := by
      rw [hw]
      simp only [dedupActions, if_neg hs]
    have heffs : (runCycle cfg w s).1
        = (processItem cfg { key := make_event_key [a], actions := [a] }).1 := by
      have h1 : (runCycle cfg w s).1
          = cycleProcess cfg (dedupActions (allActions w) s).2 := rfl
      rw [h1, hded]
      exact runItems_singleton cfg _ hpi.1
    refine ⟨?_, ?_, ?_⟩
    · rw [heffs, hpi.2.2.1, if_pos ⟨hb, hp⟩]
    · rw [heffs, hpi.2.2.2, if_pos hl]
    · rw [runCycle_all_seen cfg w ((runCycle cfg w s).2)
        (fun b hb' => dedup_key_mem (allActions w) s b hb')]
      rfl

/-- Witness for C4 at the concrete window: one delivery, one copy, nothing in
the second cycle. -/
theorem claim_C4_idempotent_cycle_witness :
    (runCycle cfgBase [actBucky] []).1.countP isDeliverEffect = 1
    ∧ (runCycle cfgBase [actBucky] []).1.countP isCopyEffect = 1
    ∧ (runCycle cfgBase [actBucky]
        ((runCycle cfgBase [actBucky] []).2)).1.countP isDeliverEffect = 0 :=
  (claim_C4_idempotent_cycle cfgBase [actBucky] []).2 aBucky
    (by decide) (by decide) rfl rfl rfl

/-- C10: the warm-up poll run during startup (before the periodic loop)
inserts the key of every Transaction visible in the feed window into the seen
set and discards its results: the immediately following cycle over the same
window performs no effects at all (no render, no copy, no delivery), and the
key of a Transaction visible at startup is never emitted as new by any later
sequence of cycles. -/
theorem claim_C10_warmup (file : LedgerFile) (w : List Activity) (a : ActionRec)
    (ws : List (List Activity)) (ha : a ∈ allActions w) :
    make_event_key [a] ∈ startup w file
    ∧ (∀ cfg : Config, runCycle cfg w (startup w file) = ([], startup w file))
    ∧ ((cyclesEmitted ws (startup w file)).1.countP
        (fun it => it.key == make_event_key [a])) = 0 := by
  refine ⟨dedup_key_mem (allActions w) (load_seen_state file []) a ha, ?_, ?_⟩
  · intro cfg
    exact runCycle_all_seen cfg w (startup w file)
      (fun b hb => dedup_key_mem (allActions w) (load_seen_state file []) b hb)
  · have hc := cycles_count ws (startup w file) (make_event_key [a])
    have hmem : make_event_key [a] ∈ startup w file :=
      dedup_key_mem (allActions w) (load_seen_state file []) a ha
    rw [if_pos hmem] at hc
    omega

/-- Witness for C10 at the concrete window and a missing ledger file. -/
theorem claim_C10_warmup_witness :
    make_event_key [aBucky] ∈ startup [actBucky] .missing :=
  (claim_C10_warmup .missing [actBucky] aBucky [] (by decide)).1

/-! ## Claims C1 and C2 -/

/-- C1 (code-bug evidence): a freshly seen "ADDED" transaction is emitted by
the poll, its card file slot is written (by copying the pre-existing latest
file, before any render) and a delivery payload is submitted, but the
renderer is never invoked: the loop guards the render call with
`action == "ADD" or action == "DROP"`, while `normalize_action` only ever
produces "ADDED"/"DROPPED" for emitted items.  The claim's "renders that
Transaction's Card" step therefore never happens. -/
theorem claim_C1_render_never_invoked :
    (poll_once [actBucky] []).1.length = 1
    ∧ (runCycle cfgBase [actBucky] []).1.countP isRenderEffect = 0
    ∧ (runCycle cfgBase [actBucky] []).1.countP isCopyEffect = 1
    ∧ (runCycle cfgBase [actBucky] []).1.countP isDeliverEffect = 1
    ∧ (∀ w a, a ∈ allActions w → ¬(a.action = "ADD" ∨ a.action = "DROP")) := by
  refine ⟨by decide, by decide, by decide, by decide, ?_⟩
  intro w a ha
  rcases allActions_action w a ha with h | h <;> rw [h] <;> decide

/-- Witness for C1's quantified part at the concrete window. -/
theorem claim_C1_render_never_invoked_witness :
    ¬(aBucky.action = "ADD" ∨ aBucky.action = "DROP") :=
  claim_C1_render_never_invoked.2.2.2.2 [actBucky] aBucky (by decide)

/-- A transaction whose action field literally reads "ADD", so that the loop's
render guard fires (not producible by `normalize_actions`, which emits
"ADDED"/"DROPPED"; used to exercise the failure path of the render call). -/
def aAddGuard : ActionRec :=
  { teamName := "T", ownerId := some "o1", action := "ADD", playerName := "P1",
    playerId := some 1, teamLogoUrl := none, playerImageUrl := some "u1" }

/-- An ordinary normalized "ADDED" transaction. -/
def aAddedOk : ActionRec :=
  { teamName := "T", ownerId := some "o1", action := "ADDED", playerName := "P2",
    playerId := some 2, teamLogoUrl := none, playerImageUrl := some "u2" }

/-- Configuration whose renderer raises (e.g. a failed subject-image fetch)
exactly on the "ADD" transaction. -/
def cfgRenderFail : Config :=
  { publicBaseUrl := some "http://x", pushcutUrl := some "http://p",
    latestExists := false, tick := 0, cardHash := fun k => k,
    ownerMap := [("o1", "Nick")],
    renderOutcome := fun a _ =>
      if a.action = "ADD" then .error "MissingAssetError" else .ok (),
    deliveryOutcome := .ok 200 }

/-- Configuration whose delivery post raises a transport error. -/
def cfgDeliverFail : Config :=
  { publicBaseUrl := some "http://x", pushcutUrl := some "http://p",
    latestExists := false, tick := 0, cardHash := fun k => k,
    ownerMap := [("o1", "Nick")],
    renderOutcome := fun _ _ => .ok (), deliveryOutcome := .error "Timeout" }

/-- The two-item cycle: the first item's render raises, the second is an
ordinary deliverable transaction. -/
def itemsRenderFail : List NewItem :=
  [{ key := "k1", actions := [aAddGuard] },
   { key := "k2", actions := [aAddedOk] }]

/-- C2 counterexample: in a cycle of two transactions where rendering the
first raises, the exception is caught and logged once at the cycle boundary
("[poll error]"), but the remaining transaction of the same cycle is NOT
delivered (zero deliveries), although processed alone it would be delivered
exactly once.  This falsifies "does not prevent the remaining Transactions of
the same cycle from being rendered and delivered". -/
theorem claim_C2_counterexample :
    (cycleProcess cfgRenderFail itemsRenderFail).countP isPollErrorEffect = 1
    ∧ (cycleProcess cfgRenderFail itemsRenderFail).countP isDeliverEffect = 0
    ∧ (cycleProcess cfgRenderFail
        [{ key := "k2", actions := [aAddedOk] }]).countP isDeliverEffect = 1 := by
  refine ⟨by decide, by decide, by decide⟩

/-- The item loop completes without an escaping exception when every item's
transaction is a normalizer-produced kind ("ADDED"/"DROPPED"): in that case
the render call is never reached, and the delivery helper catches its own
errors. -/
theorem runItems_none_of_normalized (cfg : Config) (items : List NewItem)
    (hall : ∀ item ∈ items, ∃ tr rest, item.actions = tr :: rest
        ∧ (tr.action = "ADDED" ∨ tr.action = "DROPPED")) :
    (runItems cfg items).2 = none := by
  induction items with
  | nil => rfl
  | cons item rest ih =>
    obtain ⟨tr, rest', hact, hor⟩ := hall item (List.mem_cons_self _ _)
    have hne : ¬(tr.action = "ADD" ∨ tr.action = "DROP") := by
      rcases hor with h | h <;> rw [h] <;> decide
    have h0 := (processItem_no_render cfg item tr rest' hact hne).1
    rcases hp : processItem cfg item with ⟨effs, err⟩
    rw [hp] at h0
    simp only at h0
    subst h0
    simp only [runItems, hp]
    exact ih (fun it hit => hall it (List.mem_cons_of_mem _ hit))

/-- C2 amended: an exception raised while DELIVERING a Transaction is caught
inside the delivery helper, so the per-item body never raises for
normalizer-produced transactions and every item of the cycle is processed
regardless of delivery outcome; an exception raised while RENDERING a
Transaction (possible only when the render guard fires) is caught and logged
at the cycle boundary as a "[poll error]", but it aborts the loop: the
remaining Transactions of that cycle are skipped until the next cycle. -/
theorem claim_C2_error_containment (cfg : Config) (items : List NewItem) :
    (∀ item tr rest, item.actions = tr :: rest →
        ¬(tr.action = "ADD" ∨ tr.action = "DROP") →
        (processItem cfg item).2 = none)
    ∧ (∀ e, (runItems cfg items).2 = some e →
        cycleProcess cfg items
          = (runItems cfg items).1 ++ [.logPollError ("[poll error] " ++ e)])
    ∧ (∀ item rest e, (processItem cfg item).2 = some e →
        runItems cfg (item :: rest) = ((processItem cfg item).1, some e))
    ∧ ((∀ item ∈ items, ∃ tr rest, item.actions = tr :: rest
          ∧ (tr.action = "ADDED" ∨ tr.action = "DROPPED")) →
        (runItems cfg items).2 = none) := by
  refine ⟨?_, ?_, ?_, runItems_none_of_normalized cfg items⟩
  · intro item tr rest hact hne
    exact (processItem_no_render cfg item tr rest hact hne).1
  · intro e he
    rcases hri : runItems cfg items with ⟨effs, err⟩
    rw [hri] at he
    simp only at he
    subst he
    simp [cycleProcess, hri]
  · intro item rest e hpe
    rcases hp : processItem cfg item with ⟨effs, err⟩
    rw [hp] at hpe
    simp only at hpe
    subst hpe
    simp only [runItems, hp]

/-- Witness for C2 amended: with a failing delivery post, a one-item cycle of
an "ADDED" transaction still completes without an escaping exception. -/
theorem claim_C2_error_containment_witness :
    (runItems cfgDeliverFail [{ key := "k2", actions := [aAddedOk] }]).2 = none :=
  (claim_C2_error_containment cfgDeliverFail
      [{ key := "k2", actions := [aAddedOk] }]).2.2.2 (by
    intro item hit
    rw [List.mem_singleton] at hit
    subst hit
    exact ⟨aAddedOk, [], rfl, Or.inl rfl⟩)

/-! ## Card Compositor (`add_or_drop.py`, lines 127-225)

`construct_image_adds_or_drops(player_name, player_img_url, owner_nickname,
transaction_type)`: validation and kind mapping are pure and embedded exactly;
the asset phase (template open, player-image fetch, owner-image open) runs
through the `openImage`/`fetchImage` oracles (error = the Python call raised);
text measurement runs through the `textWidth` oracle (text, font size ↦
measured width), standing for `draw.textlength` with the loaded font.  The
result records the render's layout decisions: verb, verb color, fitted sizes
and x-origins of the two caption lines. -/

abbrev Color := Nat × Nat × Nat × Nat

def WHITE : Color := (255, 255, 255, 255)

def GREEN : Color := (90, 255, 80, 255)

/-- `RED` is defined locally inside the function in the source. -/
def RED : Color := (235, 72, 72, 255)

def CAPTION1_SIZE : Nat := 24

def CAPTION2_SIZE : Nat := 35

def CAPTION_LEFT_X : ℚ := 5094/10

def CAPTION_RIGHT_X : ℚ := 766

/-- The ways `construct_image_adds_or_drops` can raise: the two explicit
`ValueError`s of the validation phase, the explicit unknown-kind
`ValueError`, and any exception escaping the asset phase. -/
inductive RenderError
  | missingFields
  | missingUrls
  | unknownType (t : String)
  | assetError (msg : String)
  deriving DecidableEq, Repr

/-- The pure layout decisions a successful render commits to. -/
structure RenderResult where
  verb : String
  verbColor : Color
  line1Size : Nat
  line1X : ℤ
  verbX : ℤ
  line2Size : Nat
  line2X : ℤ
  deriving DecidableEq, Repr

/-- An exception from an asset load surfaces as a generic error of the
render. -/
def liftAsset : Except String Unit → Except RenderError Unit
  | .ok _ => .ok ()
  | .error e => .error (.assetError e)

/-- The body of the render after validation and kind mapping: open the
template, fetch the player image (the module-level `PLAYER_IMAGE_PATH`
override is `None`), open the owner image, then fit and center the two
caption lines exactly as the source does. -/
def renderPhase (verb : String) (verbColor : Color) (pname purl own : String)
    (fetchImage : String → Except String Unit)
    (openImage : String → Except String Unit)
    (textWidth : String → Nat → ℚ) : Except RenderError RenderResult := do
  liftAsset (openImage "../templates/template_add_or_drop.png")
  liftAsset (fetchImage purl)
  liftAsset (openImage ("../owner_imgs/" ++ own ++ ".jpeg"))
  let full_line1 := own ++ verb
  let max_w := CAPTION_RIGHT_X - CAPTION_LEFT_X
  let s1 := fitFontSize (textWidth full_line1) max_w CAPTION1_SIZE
  let x1 := centered_x_for_text CAPTION_LEFT_X CAPTION_RIGHT_X (textWidth full_line1 s1)
  let vx := pythonRound ((x1 : ℚ) + textWidth own s1)
  let s2 := fitFontSize (textWidth pname) max_w CAPTION2_SIZE
  let x2 := centered_x_for_text CAPTION_LEFT_X CAPTION_RIGHT_X (textWidth pname s2)
  pure { verb := verb, verbColor := verbColor, line1Size := s1, line1X := x1,
         verbX := vx, line2Size := s2, line2X := x2 }

/-- `construct_image_adds_or_drops`: validate the three text fields, then the
image URL, then map the stripped/uppercased kind through the fixed table
(`ADD`/`ADDED` ↦ " ADDS" green, `DROP`/`DROPPED` ↦ " DROPS" red, anything
else raises), and only then touch any asset. -/
def construct_image_adds_or_drops
    (player_name player_img_url owner_nickname transaction_type : Option String)
    (fetchImage : String → Except String Unit)
    (openImage : String → Except String Unit)
    (textWidth : String → Nat → ℚ) : Except RenderError RenderResult :=
  if !truthy player_name || !truthy owner_nickname || !truthy transaction_type then
    .error .missingFields
  else if !truthy player_img_url then
    .error .missingUrls
  else
    let t := pyUpper (pyStrip (transaction_type.getD ""))
    if t = "ADD" ∨ t = "ADDED" then
      renderPhase " ADDS" GREEN (player_name.getD "") (player_img_url.getD "")
        (owner_nickname.getD "") fetchImage openImage textWidth
    else if t = "DROP" ∨ t = "DROPPED" then
      renderPhase " DROPS" RED (player_name.getD "") (player_img_url.getD "")
        (owner_nickname.getD "") fetchImage openImage textWidth
    else .error (.unknownType (transaction_type.getD ""))

/-! ### C8 lemmas and claim -/

theorem renderPhase_cases (verb : String) (vc : Color) (pname purl own : String)
    (fetchImage openImage : String → Except String Unit)
    (textWidth : String → Nat → ℚ) :
    (∃ res : RenderResult,
        renderPhase verb vc pname purl own fetchImage openImage textWidth = .ok res
        ∧ res.verb = verb ∧ res.verbColor = vc)
    ∨ (∃ msg, renderPhase verb vc pname purl own fetchImage openImage textWidth
        = .error (.assetError msg)) := by
  unfold renderPhase
  rcases h1 : openImage "../templates/template_add_or_drop.png" with e1 | u1
  · right
    refine ⟨e1, ?_⟩
    simp [liftAsset, h1, Bind.bind, Except.bind, Functor.map, Except.map]
  · rcases h2 : fetchImage purl with e2 | u2
    · right
      refine ⟨e2, ?_⟩
      simp [liftAsset, h1, h2, Bind.bind, Except.bind, Functor.map, Except.map]
    · rcases h3 : openImage ("../owner_imgs/" ++ own ++ ".jpeg") with e3 | u3
      · right
        refine ⟨e3, ?_⟩
        simp [liftAsset, h1, h2, h3, Bind.bind, Except.bind, Functor.map, Except.map]
      · left
        simp only [liftAsset, h1, h2, h3, Bind.bind, Except.bind, Functor.map,
                   Except.map]
        exact ⟨_, rfl, rfl, rfl⟩

theorem renderPhase_ne_validation (verb : String) (vc : Color)
    (pname purl own : String)
    (fetchImage openImage : String → Except String Unit)
    (textWidth : String → Nat → ℚ) :
    renderPhase verb vc pname purl own fetchImage openImage textWidth
      ≠ .error .missingFields
    ∧ renderPhase verb vc pname purl own fetchImage openImage textWidth
      ≠ .error .missingUrls
    ∧ ∀ t, renderPhase verb vc pname purl own fetchImage openImage textWidth
      ≠ .error (.unknownType t) := by
  rcases renderPhase_cases verb vc pname purl own fetchImage openImage textWidth with
    ⟨res, hres, _, _⟩ | ⟨msg, hmsg⟩
  · rw [hres]
    refine ⟨by simp, by simp, fun t => by simp⟩
  · rw [hmsg]
    refine ⟨by simp, by simp, fun t => by simp⟩

theorem truthy_conflict {x : Option String} (h1 : truthy x = true)
    (h2 : truthy x = false) : False := by
  rw [h1] at h2
  exact Bool.noConfusion h2

/-- C8 counterexample: the claim states an absent subject image URL is still
valid compositor input, the validation error arising if and only if
`subjectName`, `teamName` or `kind` is absent.  The code also validates the
image URL: with all three text fields present and the URL absent, it raises
`ValueError("Invalid parameters: missing image urls")` before any asset
I/O. -/
theorem claim_C8_counterexample :
    construct_image_adds_or_drops (some "Bucky Irving") none (some "moja")
      (some "ADD") (fun _ => .ok ()) (fun _ => .ok ()) (fun _ _ => 0)
      = .error .missingUrls := rfl

/-- C8 amended: the compositor fails with the missing-text-fields validation
error iff `subjectName`, `teamName` or `kind` is absent; it fails with the
missing-image-url validation error iff the text fields are present but the
subject image URL is absent; both checks precede any asset I/O (the
equivalences hold for every asset oracle); for present fields the
stripped/uppercased kind maps through the fixed table ADD/ADDED ↦
(" ADDS", accent green) and DROP/DROPPED ↦ (" DROPS", accent red) — any
other kind is rejected before asset I/O as an unknown transaction type. -/
theorem claim_C8_validation (pn purl own ty : Option String)
    (fetchImage openImage : String → Except String Unit)
    (textWidth : String → Nat → ℚ) :
    (construct_image_adds_or_drops pn purl own ty fetchImage openImage textWidth
        = .error .missingFields
      ↔ (truthy pn = false ∨ truthy own = false ∨ truthy ty = false))
    ∧ (construct_image_adds_or_drops pn purl own ty fetchImage openImage textWidth
        = .error .missingUrls
      ↔ (truthy pn = true ∧ truthy own = true ∧ truthy ty = true
          ∧ truthy purl = false))
    ∧ (truthy pn = true → truthy own = true → truthy ty = true →
        truthy purl = true →
        (pyUpper (pyStrip (ty.getD "")) = "ADD"
          ∨ pyUpper (pyStrip (ty.getD "")) = "ADDED") →
        (∃ res, construct_image_adds_or_drops pn purl own ty fetchImage openImage
              textWidth = .ok res ∧ res.verb = " ADDS" ∧ res.verbColor = GREEN)
        ∨ (∃ msg, construct_image_adds_or_drops pn purl own ty fetchImage openImage
              textWidth = .error (.assetError msg)))
    ∧ (truthy pn = true → truthy own = true → truthy ty = true →
        truthy purl = true →
        (pyUpper (pyStrip (ty.getD "")) = "DROP"
          ∨ pyUpper (pyStrip (ty.getD "")) = "DROPPED") →
        (∃ res, construct_image_adds_or_drops pn purl own ty fetchImage openImage
              textWidth = .ok res ∧ res.verb = " DROPS" ∧ res.verbColor = RED)
        ∨ (∃ msg, construct_image_adds_or_drops pn purl own ty fetchImage openImage
              textWidth = .error (.assetError msg)))
    ∧ (truthy pn = true → truthy own = true → truthy ty = true →
        truthy purl = true →
        ¬(pyUpper (pyStrip (ty.getD "")) = "ADD"
          ∨ pyUpper (pyStrip (ty.getD "")) = "ADDED") →
        ¬(pyUpper (pyStrip (ty.getD "")) = "DROP"
          ∨ pyUpper (pyStrip (ty.getD "")) = "DROPPED") →
        construct_image_adds_or_drops pn purl own ty fetchImage openImage textWidth
          = .error (.unknownType (ty.getD ""))) := by
  simp only [construct_image_adds_or_drops]
  split_ifs with h1 h2 h3 h4
  · -- validation: missing text fields
    simp only [Bool.or_eq_true, Bool.not_eq_true', or_assoc] at h1
    refine ⟨⟨fun _ => h1, fun _ => rfl⟩, ?_, ?_, ?_, ?_⟩
    · constructor
      · intro hcontra
        exact absurd hcontra (by simp)
      · rintro ⟨ha, hb, hc, _⟩
        exfalso
        rcases h1 with h | h | h
        exacts [truthy_conflict ha h, truthy_conflict hb h, truthy_conflict hc h]
    · intro ha hb hc _ _
      exfalso
      rcases h1 with h | h | h
      exacts [truthy_conflict ha h, truthy_conflict hb h, truthy_conflict hc h]
    · intro ha hb hc _ _
      exfalso
      rcases h1 with h | h | h
      exacts [truthy_conflict ha h, truthy_conflict hb h, truthy_conflict hc h]
    · intro ha hb hc _ _ _
      exfalso
      rcases h1 with h | h | h
      exacts [truthy_conflict ha h, truthy_conflict hb h, truthy_conflict hc h]
  · -- validation: missing image url
    simp only [Bool.or_eq_true, Bool.not_eq_true', or_assoc, not_or,
               Bool.not_eq_false] at h1
    obtain ⟨hp, ho, ht⟩ := h1
    simp only [Bool.not_eq_true'] at h2
    refine ⟨?_, ⟨fun _ => ⟨hp, ho, ht, h2⟩, fun _ => rfl⟩, ?_, ?_, ?_⟩
    · constructor
      · intro hcontra
        exact absurd hcontra (by simp)
      · rintro (h | h | h) <;> exfalso
        exacts [truthy_conflict hp h, truthy_conflict ho h, truthy_conflict ht h]
    · intro _ _ _ hpurl _
      exact absurd hpurl (by rw [h2]; exact Bool.noConfusion)
    · intro _ _ _ hpurl _
      exact absurd hpurl (by rw [h2]; exact Bool.noConfusion)
    · intro _ _ _ hpurl _ _
      exact absurd hpurl (by rw [h2]; exact Bool.noConfusion)
  · -- kind maps to " ADDS" / accent green
    have hne := renderPhase_ne_validation " ADDS" GREEN (pn.getD "")
      (purl.getD "") (own.getD "") fetchImage openImage textWidth
    simp only [Bool.or_eq_true, Bool.not_eq_true', or_assoc, not_or,
               Bool.not_eq_false] at h1
    obtain ⟨hp, ho, ht⟩ := h1
    refine ⟨?_, ?_, ?_, ?_, ?_⟩
    · constructor
      · intro hcontra
        exact absurd hcontra hne.1
      · rintro (h | h | h) <;> exfalso
        exacts [truthy_conflict hp h, truthy_conflict ho h, truthy_conflict ht h]
    · constructor
      · intro hcontra
        exact absurd hcontra hne.2.1
      · rintro ⟨_, _, _, hpf⟩
        exfalso
        exact h2 (by rw [hpf]; rfl)
    · intro _ _ _ _ _
      exact renderPhase_cases " ADDS" GREEN (pn.getD "") (purl.getD "")
        (own.getD "") fetchImage openImage textWidth
    · intro _ _ _ _ hdrop
      exfalso
      rcases h3 with h | h <;> rcases hdrop with h' | h' <;>
        rw [h] at h' <;> exact absurd h' (by decide)
    · intro _ _ _ _ hnadd _
      exact absurd h3 hnadd
  · -- kind maps to " DROPS" / accent red
    have hne := renderPhase_ne_validation " DROPS" RED (pn.getD "")
      (purl.getD "") (own.getD "") fetchImage openImage textWidth
    simp only [Bool.or_eq_true, Bool.not_eq_true', or_assoc, not_or,
               Bool.not_eq_false] at h1
    obtain ⟨hp, ho, ht⟩ := h1
    refine ⟨?_, ?_, ?_, ?_, ?_⟩
    · constructor
      · intro hcontra
        exact absurd hcontra hne.1
      · rintro (h | h | h) <;> exfalso
        exacts [truthy_conflict hp h, truthy_conflict ho h, truthy_conflict ht h]
    · constructor
      · intro hcontra
        exact absurd hcontra hne.2.1
      · rintro ⟨_, _, _, hpf⟩
        exfalso
        exact h2 (by rw [hpf]; rfl)
    · intro _ _ _ _ hadd
      exact absurd hadd h3
    · intro _ _ _ _ _
      exact renderPhase_cases " DROPS" RED (pn.getD "") (purl.getD "")
        (own.getD "") fetchImage openImage textWidth
    · intro _ _ _ _ _ hndrop
      exact absurd h4 hndrop
  · -- unknown kind, rejected before any asset I/O
    simp only [Bool.or_eq_true, Bool.not_eq_true', or_assoc, not_or,
               Bool.not_eq_false] at h1
    obtain ⟨hp, ho, ht⟩ := h1
    refine ⟨?_, ?_, ?_, ?_, ?_⟩
    · constructor
      · intro hcontra
        exact absurd hcontra (by simp)
      · rintro (h | h | h) <;> exfalso
        exacts [truthy_conflict hp h, truthy_conflict ho h, truthy_conflict ht h]
    · constructor
      · intro hcontra
        exact absurd hcontra (by simp)
      · rintro ⟨_, _, _, hpf⟩
        exfalso
        exact h2 (by rw [hpf]; rfl)
    · intro _ _ _ _ hadd
      exact absurd hadd h3
    · intro _ _ _ _ hdrop
      exact absurd hdrop h4
    · intro _ _ _ _ _ _
      rfl

/-- Witness for C8 amended: with every field present and succeeding asset
oracles, an "ADD" render resolves to the " ADDS"/green mapping. -/
theorem claim_C8_validation_witness :
    (∃ res, construct_image_adds_or_drops (some "Bucky Irving")
        (some "http://img") (some "moja") (some "ADD")
        (fun _ => .ok ()) (fun _ => .ok ()) (fun _ _ => 0)
        = .ok res ∧ res.verb = " ADDS" ∧ res.verbColor = GREEN)
    ∨ (∃ msg, construct_image_adds_or_drops (some "Bucky Irving")
        (some "http://img") (some "moja") (some "ADD")
        (fun _ => .ok ()) (fun _ => .ok ()) (fun _ _ => 0)
        = .error (.assetError msg)) :=
  (claim_C8_validation (some "Bucky Irving") (some "http://img") (some "moja")
      (some "ADD") (fun _ => .ok ()) (fun _ => .ok ())
      (fun _ _ => 0)).2.2.1 rfl rfl rfl rfl (Or.inl (by decide))
